import Mathlib

/-!
Verification of the JA4 TLS-fingerprint core of this repository
(`security-lab/detection/ja4_extractor.py`): a shallow embedding of the
ClientHello raw-byte parser and of the fingerprint engine, followed by
theorems settling the specification's claims about them.

Bytes are modelled as `Nat` (values < 256 on the wire), byte buffers as
`List Nat`, and Python strings as `List Char` (Unicode code points).
Python's exception-based control flow is made explicit: operations that can
raise (indexing, `struct.unpack` on a short slice, strict UTF-8 decoding)
return `Option`, and the outer `try/except` of the parser corresponds to
propagating `none`, while the inner `try/except ... pass` blocks correspond
to keeping the previously accumulated state when a sub-parse returns `none`.
-/

namespace JA4

/-! ## Python byte primitives -/

/-- Python `data[i]` on a `bytes` value with a non-negative index:
raises `IndexError` (here: `none`) when `i` is out of range. -/
def byteAt (d : List Nat) (i : Nat) : Option Nat := d[i]?

/-- Python slice `d[a:b]` for non-negative bounds: silently truncates,
never raises. -/
def pySlice (d : List Nat) (a b : Nat) : List Nat := (d.take b).drop a

/-- Python `struct.unpack(">H", d[i:i+2])[0]`: big-endian 16-bit read;
`struct.error` (here: `none`) unless the slice holds exactly 2 bytes. -/
def unpack2 (d : List Nat) (i : Nat) : Option Nat :=
  match d[i]?, d[i+1]? with
  | some x, some y => some (x * 256 + y)
  | _, _ => none

/-- Python `struct.unpack(">I", b'\x00' + d[i:i+3])[0]`: 24-bit big-endian
read; fails unless the slice holds exactly 3 bytes. -/
def unpack3 (d : List Nat) (i : Nat) : Option Nat :=
  match d[i]?, d[i+1]?, d[i+2]? with
  | some x, some y, some z => some (x * 65536 + y * 256 + z)
  | _, _, _ => none

/-! ## UTF-8 (Python `bytes.decode('utf-8')` strict mode and `str.encode()`) -/

/-- Strict UTF-8 decoding of a byte list, as Python's
`bytes.decode('utf-8')`: rejects stray continuation bytes, overlong
encodings, surrogate code points and values above `0x10FFFF`;
any error yields `none`. -/
def utf8Decode : List Nat → Option (List Char)
  | [] => some []
  | b :: rest =>
    if b < 0x80 then
      (utf8Decode rest).map (fun cs => Char.ofNat b :: cs)
    else if b < 0xC2 then none
    else if b < 0xE0 then
      match rest with
      | c1 :: r =>
        if 0x80 ≤ c1 ∧ c1 < 0xC0 then
          (utf8Decode r).map (fun cs => Char.ofNat ((b - 0xC0) * 64 + (c1 - 0x80)) :: cs)
        else none
      | _ => none
    else if b < 0xF0 then
      match rest with
      | c1 :: c2 :: r =>
        if ((if b = 0xE0 then 0xA0 else 0x80) ≤ c1 ∧ c1 < (if b = 0xED then 0xA0 else 0xC0)) ∧
            (0x80 ≤ c2 ∧ c2 < 0xC0) then
          (utf8Decode r).map (fun cs =>
            Char.ofNat ((b - 0xE0) * 4096 + (c1 - 0x80) * 64 + (c2 - 0x80)) :: cs)
        else none
      | _ => none
    else if b < 0xF5 then
      match rest with
      | c1 :: c2 :: c3 :: r =>
        if ((if b = 0xF0 then 0x90 else 0x80) ≤ c1 ∧ c1 < (if b = 0xF4 then 0x90 else 0xC0)) ∧
            (0x80 ≤ c2 ∧ c2 < 0xC0) ∧ (0x80 ≤ c3 ∧ c3 < 0xC0) then
          (utf8Decode r).map (fun cs =>
            Char.ofNat ((b - 0xF0) * 262144 + (c1 - 0x80) * 4096 + (c2 - 0x80) * 64 + (c3 - 0x80)) :: cs)
        else none
      | _ => none
    else none

/-- UTF-8 encoding of one code point (1 to 4 bytes). -/
def encodeCodePoint (n : Nat) : List Nat :=
  if n < 0x80 then [n]
  else if n < 0x800 then [0xC0 + n / 64, 0x80 + n % 64]
  else if n < 0x10000 then [0xE0 + n / 4096, 0x80 + n / 64 % 64, 0x80 + n % 64]
  else [0xF0 + n / 262144, 0x80 + n / 4096 % 64, 0x80 + n / 64 % 64, 0x80 + n % 64]

/-- Python `str.encode()` (UTF-8). -/
def utf8Encode (s : List Char) : List Nat := s.flatMap (fun c => encodeCodePoint c.toNat)

/-! ## SHA-256 (Python `hashlib.sha256`), over `Nat` with explicit mod 2^32 -/

/-- Truncation to a 32-bit word. -/
def w32 (n : Nat) : Nat := n % 4294967296

/-- 32-bit right rotation of a word `x < 2^32`. -/
def rotr (k x : Nat) : Nat := w32 (x / 2 ^ k + x % 2 ^ k * 2 ^ (32 - k))

def bigSigma0 (x : Nat) : Nat := rotr 2 x ^^^ rotr 13 x ^^^ rotr 22 x

def bigSigma1 (x : Nat) : Nat := rotr 6 x ^^^ rotr 11 x ^^^ rotr 25 x

def smallSigma0 (x : Nat) : Nat := rotr 7 x ^^^ rotr 18 x ^^^ x / 2 ^ 3

def smallSigma1 (x : Nat) : Nat := rotr 17 x ^^^ rotr 19 x ^^^ x / 2 ^ 10

def chOp (e f g : Nat) : Nat := (e &&& f) ^^^ ((e ^^^ 0xffffffff) &&& g)

def majOp (a b c : Nat) : Nat := (a &&& b) ^^^ (a &&& c) ^^^ (b &&& c)

/-- The 64 SHA-256 round constants (FIPS 180-4), as decimal naturals. -/
def shaK : List Nat :=
  [1116352408, 1899447441, 3049323471, 3921009573, 961987163, 1508970993,
   2453635748, 2870763221, 3624381080, 310598401, 607225278, 1426881987,
   1925078388, 2162078206, 2614888103, 3248222580, 3835390401, 4022224774,
   264347078, 604807628, 770255983, 1249150122, 1555081692, 1996064986,
   2554220882, 2821834349, 2952996808, 3210313671, 3336571891, 3584528711,
   113926993, 338241895, 666307205, 773529912, 1294757372, 1396182291,
   1695183700, 1986661051, 2177026350, 2456956037, 2730485921, 2820302411,
   3259730800, 3345764771, 3516065817, 3600352804, 4094571909, 275423344,
   430227734, 506948616, 659060556, 883997877, 958139571, 1322822218,
   1537002063, 1747873779, 1955562222, 2024104815, 2227730452, 2361852424,
   2428436474, 2756734187, 3204031479, 3329325298]

/-- Eight 32-bit hash words (initial vector, chaining state and working
variables of the compression function). -/
structure Hash8 where
  h0 : Nat
  h1 : Nat
  h2 : Nat
  h3 : Nat
  h4 : Nat
  h5 : Nat
  h6 : Nat
  h7 : Nat
deriving DecidableEq, Repr

/-- The SHA-256 initial hash value. -/
def shaInit : Hash8 :=
  ⟨1779033703, 3144134277, 1013904242, 2773480762, 1359893119, 2600822924, 528734635, 1541459225⟩

/-- Group a byte list into big-endian 32-bit words (complete groups of 4). -/
def toWords : List Nat → List Nat
  | b0 :: b1 :: b2 :: b3 :: rest => (b0 * 16777216 + b1 * 65536 + b2 * 256 + b3) :: toWords rest
  | _ => []

/-- One message-schedule extension step: append the next scheduled word. -/
def extendStep (ws : List Nat) : List Nat :=
  ws ++ [w32 (smallSigma1 (ws.getD (ws.length - 2) 0) + ws.getD (ws.length - 7) 0 +
    smallSigma0 (ws.getD (ws.length - 15) 0) + ws.getD (ws.length - 16) 0)]

/-- Iterate the schedule extension a fixed number of times. -/
def extendIter : Nat → List Nat → List Nat
  | 0, ws => ws
  | k + 1, ws => extendIter k (extendStep ws)

/-- Extend the 16 block words to the 64-entry message schedule
(exactly 48 extension steps). -/
def extendWords (ws : List Nat) : List Nat := extendIter 48 ws

/-- The 64 compression rounds, consuming the schedule and the constants. -/
def compressLoop : List Nat → List Nat → Hash8 → Hash8
  | w :: ws, k :: ks, st =>
    let t1 := w32 (st.h7 + bigSigma1 st.h4 + chOp st.h4 st.h5 st.h6 + k + w)
    let t2 := w32 (bigSigma0 st.h0 + majOp st.h0 st.h1 st.h2)
    compressLoop ws ks ⟨w32 (t1 + t2), st.h0, st.h1, st.h2, w32 (st.h3 + t1), st.h4, st.h5, st.h6⟩
  | _, _, st => st

/-- Process one 64-byte block into the chaining state. -/
def processBlock (st : Hash8) (block : List Nat) : Hash8 :=
  let r := compressLoop (extendWords (toWords block)) shaK st
  ⟨w32 (st.h0 + r.h0), w32 (st.h1 + r.h1), w32 (st.h2 + r.h2), w32 (st.h3 + r.h3),
   w32 (st.h4 + r.h4), w32 (st.h5 + r.h5), w32 (st.h6 + r.h6), w32 (st.h7 + r.h7)⟩

/-- Process the given number of leading 64-byte blocks of a byte list
(after SHA-256 padding, the list is an exact multiple of 64 bytes and the
block count is its length divided by 64). -/
def processBlocks : Nat → Hash8 → List Nat → Hash8
  | 0, st, _ => st
  | _ + 1, st, [] => st
  | k + 1, st, l => processBlocks k (processBlock st (l.take 64)) (l.drop 64)

/-- SHA-256 padding: `0x80`, zeros to 56 mod 64, 8-byte big-endian bit length. -/
def shaPad (msg : List Nat) : List Nat :=
  msg ++ [0x80] ++ List.replicate ((64 - (msg.length + 9) % 64) % 64) 0 ++
    [msg.length * 8 / 2 ^ 56 % 256, msg.length * 8 / 2 ^ 48 % 256,
     msg.length * 8 / 2 ^ 40 % 256, msg.length * 8 / 2 ^ 32 % 256,
     msg.length * 8 / 2 ^ 24 % 256, msg.length * 8 / 2 ^ 16 % 256,
     msg.length * 8 / 2 ^ 8 % 256, msg.length * 8 % 256]

/-- Big-endian bytes of one 32-bit word. -/
def wordBytes (w : Nat) : List Nat := [w / 16777216 % 256, w / 65536 % 256, w / 256 % 256, w % 256]

/-- SHA-256 digest (32 bytes) of a byte message. -/
def sha256 (msg : List Nat) : List Nat :=
  let p := shaPad msg
  let st := processBlocks (p.length / 64) shaInit p
  wordBytes st.h0 ++ wordBytes st.h1 ++ wordBytes st.h2 ++ wordBytes st.h3 ++
    wordBytes st.h4 ++ wordBytes st.h5 ++ wordBytes st.h6 ++ wordBytes st.h7

/-- Lowercase hex digit for `n < 16` (defaulting to `'0'`). -/
def hexDigitChar (n : Nat) : Char := "0123456789abcdef".toList.getD n '0'

/-- Lowercase hex rendering of a byte list, two digits per byte
(Python's `hexdigest()` on the digest bytes). -/
def bytesToHex (bs : List Nat) : List Char :=
  bs.flatMap (fun b => [hexDigitChar (b / 16 % 16), hexDigitChar (b % 16)])

/-- Python `hashlib.sha256(msg).hexdigest()`. -/
def hexdigest (msg : List Nat) : List Char := bytesToHex (sha256 msg)

/-- `compute_hash` of the source: truncated SHA-256 hex digest (12 chars)
of the UTF-8 encoding of a string. -/
def compute_hash (s : List Char) : List Char := (hexdigest (utf8Encode s)).take 12

/-! ## Fingerprint engine (`calculate_ja4` and its helpers) -/

/-- `GREASE_VALUES` of the source (RFC 8701 reserved values). -/
def GREASE_VALUES : List Nat :=
  [0x0a0a, 0x1a1a, 0x2a2a, 0x3a3a, 0x4a4a, 0x5a5a, 0x6a6a, 0x7a7a,
   0x8a8a, 0x9a9a, 0xaaaa, 0xbaba, 0xcaca, 0xdada, 0xeaea, 0xfafa]

/-- `is_grease` of the source: membership in `GREASE_VALUES`. -/
def is_grease (v : Nat) : Bool := GREASE_VALUES.contains v

/-- `TLS_VERSIONS` of the source: version-code to JA4 string table. -/
def TLS_VERSIONS : List (Nat × List Char) :=
  [(0x0304, ['1', '3']), (0x0303, ['1', '2']), (0x0302, ['1', '1']), (0x0301, ['1', '0']),
   (0x0300, ['s', '3']), (0xfefd, ['d', '2']), (0xfeff, ['d', '1'])]

/-- `get_tls_version_string` of the source: `TLS_VERSIONS.get(version, "00")`. -/
def get_tls_version_string (v : Nat) : List Char :=
  (TLS_VERSIONS.lookup v).getD ['0', '0']

def EXT_SNI : Nat := 0x0000

def EXT_ALPN : Nat := 0x0010

def EXT_SUPPORTED_VERSIONS : Nat := 0x002b

def EXT_SIGNATURE_ALGORITHMS : Nat := 0x000d

/-- Python `str.isalnum` restricted to the ASCII range. The Python original
is Unicode-aware; the ClientHello values exercised by the claims carry
ASCII protocol names, where the two agree. -/
def pyIsAlnum (c : Char) : Bool :=
  ('0' ≤ c && c ≤ '9') || ('a' ≤ c && c ≤ 'z') || ('A' ≤ c && c ≤ 'Z')

/-- `get_alpn_code` of the source: first and last alphanumeric character of
the first protocol, doubling a single character, `"00"` when nothing is left. -/
def get_alpn_code (ps : List (List Char)) : List Char :=
  match ps with
  | [] => ['0', '0']
  | p :: _ =>
    match p.filter pyIsAlnum with
    | [] => ['0', '0']
    | [c] => [c, c]
    | c :: c2 :: rest => [c, (c2 :: rest).getLastD c2]

/-- Decimal digit for `n < 10` (defaulting to `'0'`). -/
def decDigitChar (n : Nat) : Char := "0123456789".toList.getD n '0'

/-- Digit accumulation for decimal rendering; the fuel bounds the digit
count (`n` digits always suffice for `n`). -/
def decCharsGo : Nat → Nat → List Char
  | 0, _ => []
  | fuel + 1, m => if m = 0 then [] else decCharsGo fuel (m / 10) ++ [decDigitChar (m % 10)]

/-- Decimal rendering of a natural number (Python `str(n)` for `n ≥ 0`). -/
def natToDecChars (n : Nat) : List Char :=
  if n = 0 then ['0'] else decCharsGo n n

/-- Digit accumulation for hex rendering; the fuel bounds the digit count. -/
def hexCharsGo : Nat → Nat → List Char
  | 0, _ => []
  | fuel + 1, m => if m = 0 then [] else hexCharsGo fuel (m / 16) ++ [hexDigitChar (m % 16)]

/-- Hex rendering of a natural number, lowercase, no leading zeros
(Python `"%x" % n`). -/
def natToHexChars (n : Nat) : List Char :=
  if n = 0 then ['0'] else hexCharsGo n n

/-- Zero left-padding to a minimum width (Python's `0`-padded format specs). -/
def zeroPad (w : Nat) (s : List Char) : List Char := List.replicate (w - s.length) '0' ++ s

/-- Python `f"{n:02d}"`. -/
def pyDec2 (n : Nat) : List Char := zeroPad 2 (natToDecChars n)

/-- Python `f"{n:04x}"`. -/
def pyHex4 (n : Nat) : List Char := zeroPad 4 (natToHexChars n)

/-- Python `",".join(strings)`. -/
def joinComma (l : List (List Char)) : List Char := List.intercalate [','] l

/-- Python `sorted` on a list of naturals (ascending). -/
def sortNats (l : List Nat) : List Nat := List.insertionSort (· ≤ ·) l

/-- Python `max` seeded for a non-empty list of naturals (`max(l)` for the
guarded non-empty use in the source). -/
def maxNat (l : List Nat) : Nat := l.foldl max 0

/-- `ClientHello` of the source: the parsed message value. `sni = none`
models Python `None`; an empty-but-present host name is `some []`. -/
structure ClientHello where
  version : Nat
  cipher_suites : List Nat
  extensions : List Nat
  sni : Option (List Char) := none
  alpn_protocols : List (List Char) := []
  supported_versions : List Nat := []
  signature_algorithms : List Nat := []
deriving DecidableEq, Repr

/-- `JA4Fingerprint` of the source. -/
structure JA4Fingerprint where
  full : List Char
  a : List Char
  b : List Char
  c : List Char
deriving DecidableEq, Repr

/-- Python truthiness of the `Optional[str]` field `sni`:
`None` and `""` are falsy. -/
def pyTruthyStr (s : Option (List Char)) : Bool :=
  match s with
  | none => false
  | some cs => !cs.isEmpty

/-- `calculate_ja4` of the source, line for line. -/
def calculate_ja4 (client_hello : ClientHello) : JA4Fingerprint :=
  let protocol : List Char := ['t']
  let version : Nat :=
    if client_hello.supported_versions ≠ [] then
      let real_versions := client_hello.supported_versions.filter (fun v => !is_grease v)
      if real_versions ≠ [] then maxNat real_versions else client_hello.version
    else client_hello.version
  let version_str := get_tls_version_string version
  let sni_char : List Char := if pyTruthyStr client_hello.sni then ['d'] else ['i']
  let real_ciphers := client_hello.cipher_suites.filter (fun c => !is_grease c)
  let cipher_count := min real_ciphers.length 99
  let real_extensions := client_hello.extensions.filter (fun e => !is_grease e)
  let ext_count := min real_extensions.length 99
  let alpn_code := get_alpn_code client_hello.alpn_protocols
  let section_a := protocol ++ version_str ++ sni_char ++ pyDec2 cipher_count ++
    pyDec2 ext_count ++ alpn_code
  let ciphers_sorted := sortNats real_ciphers
  let cipher_string := joinComma (ciphers_sorted.map pyHex4)
  let section_b := compute_hash cipher_string
  let extensions_filtered := real_extensions.filter (fun e => e ≠ EXT_SNI ∧ e ≠ EXT_ALPN)
  let extensions_sorted := sortNats extensions_filtered
  let ext_string := joinComma (extensions_sorted.map pyHex4)
  let combined :=
    if client_hello.signature_algorithms ≠ [] then
      ext_string ++ ['_'] ++ joinComma (client_hello.signature_algorithms.map pyHex4)
    else ext_string
  let section_c := compute_hash combined
  let full_ja4 := section_a ++ ['_'] ++ section_b ++ ['_'] ++ section_c
  ⟨full_ja4, section_a, section_b, section_c⟩

/-! ## Raw ClientHello parser (`parse_client_hello_raw`) -/

/-- The mutable extension-scan state of the parser's extension loop. -/
structure ExtState where
  extensions : List Nat
  sni : Option (List Char)
  alpn_protocols : List (List Char)
  supported_versions : List Nat
  signature_algorithms : List Nat
deriving DecidableEq, Repr

/-- The SNI extension body scan (source lines 278–284, inside its local
`try`): reads the unused list length and name type, the name length, then
strictly UTF-8-decodes the name slice; any raised step yields `none`
(the caller then keeps the previous `sni`). -/
def parseSniData (ed : List Nat) : Option (List Char) :=
  match unpack2 ed 0 with
  | none => none
  | some _ =>
    match byteAt ed 2 with
    | none => none
    | some _ =>
      match unpack2 ed 3 with
      | none => none
      | some sni_len => utf8Decode (pySlice ed 5 (5 + sni_len))

/-- The ALPN protocol-name loop (source lines 291–295): protocols appended
so far survive a raised step, which ends the scan. -/
def alpnLoop (ed : List Nat) (bound off : Nat) (acc : List (List Char)) : List (List Char) :=
  if off < bound then
    match byteAt ed off with
    | none => acc
    | some proto_len =>
      match utf8Decode (pySlice ed (off + 1) (off + 1 + proto_len)) with
      | none => acc
      | some proto => alpnLoop ed bound (off + 1 + proto_len) (acc ++ [proto])
  else acc
termination_by bound - off
decreasing_by omega

/-- The ALPN extension body scan (source lines 289–295): reads the 2-byte
list length, then runs the protocol loop from offset 2 appending onto the
protocols accumulated so far. -/
def parseAlpnData (ed : List Nat) (acc : List (List Char)) : List (List Char) :=
  match unpack2 ed 0 with
  | none => acc
  | some alpn_list_len => alpnLoop ed (2 + alpn_list_len) 2 acc

/-- The supported_versions entry loop (source lines 303–305): steps `i` by
2 below the declared byte length, reading a 2-byte code at `1 + i`; entries
appended before a raised read survive. -/
def svLoop (ed : List Nat) (len i : Nat) (acc : List Nat) : List Nat :=
  if i < len then
    match unpack2 ed (1 + i) with
    | none => acc
    | some v => svLoop ed len (i + 2) (acc ++ [v])
  else acc
termination_by len - i
decreasing_by omega

/-- The supported_versions extension body scan (source lines 302–305):
reads the 1-byte list length then runs the entry loop. -/
def parseSvData (ed : List Nat) (acc : List Nat) : List Nat :=
  match byteAt ed 0 with
  | none => acc
  | some ver_list_len => svLoop ed ver_list_len 0 acc

/-- The signature_algorithms entry loop (source lines 313–315): steps `i`
by 2 below the declared byte length, reading a 2-byte code at `2 + i`. -/
def saLoop (ed : List Nat) (len i : Nat) (acc : List Nat) : List Nat :=
  if i < len then
    match unpack2 ed (2 + i) with
    | none => acc
    | some v => saLoop ed len (i + 2) (acc ++ [v])
  else acc
termination_by len - i
decreasing_by omega

/-- The signature_algorithms extension body scan (source lines 312–315):
reads the 2-byte list length then runs the entry loop. -/
def parseSaData (ed : List Nat) (acc : List Nat) : List Nat :=
  match unpack2 ed 0 with
  | none => acc
  | some sig_list_len => saLoop ed sig_list_len 0 acc

/-- The extension records loop (source lines 268–319): reads
`(type, length, data)` records while `offset < ext_end`; a raised
header read propagates to the outer handler (whole parse fails),
while the deep decoders fail only locally. -/
def extLoop (data : List Nat) (extEnd off : Nat) (st : ExtState) : Option ExtState :=
  if off < extEnd then
    match unpack2 data off with
    | none => none
    | some ext_type =>
      match unpack2 data (off + 2) with
      | none => none
      | some ext_len =>
        let ed := pySlice data (off + 4) (off + 4 + ext_len)
        let st1 := { st with extensions := st.extensions ++ [ext_type] }
        let st2 :=
          if ext_type = EXT_SNI ∧ ext_len > 0 then
            { st1 with sni := match parseSniData ed with
                              | some s => some s
                              | none => st1.sni }
          else if ext_type = EXT_ALPN ∧ ext_len > 0 then
            { st1 with alpn_protocols := parseAlpnData ed st1.alpn_protocols }
          else if ext_type = EXT_SUPPORTED_VERSIONS ∧ ext_len > 0 then
            { st1 with supported_versions := parseSvData ed st1.supported_versions }
          else if ext_type = EXT_SIGNATURE_ALGORITHMS ∧ ext_len > 0 then
            { st1 with signature_algorithms := parseSaData ed st1.signature_algorithms }
          else st1
        extLoop data extEnd (off + 4 + ext_len) st2
  else some st
termination_by extEnd - off
decreasing_by omega

/-- The cipher-suite loop (source lines 247–249): steps `i` by 2 below the
declared byte length; a raised read propagates (whole parse fails). -/
def cipherLoop (data : List Nat) (base csl i : Nat) (acc : List Nat) : Option (List Nat) :=
  if i < csl then
    match unpack2 data (base + i) with
    | none => none
    | some c => cipherLoop data base csl (i + 2) (acc ++ [c])
  else some acc
termination_by csl - i
decreasing_by omega

/-- `parse_client_hello_raw` of the source: walks record header, handshake
header, ClientHello body and extensions; `none` models both the explicit
`return None` branches and any uncaught exception reaching the outer
handler. The record length (read at offset 3) and handshake length (read
at offset 6) are read, and can therefore raise, but are never validated. -/
def parse_client_hello_raw (data : List Nat) : Option ClientHello :=
  match byteAt data 0 with
  | none => none
  | some content_type =>
    if content_type ≠ 0x16 then none else
    match unpack2 data 1 with
    | none => none
    | some _ =>
      match unpack2 data 3 with
      | none => none
      | some _ =>
        match byteAt data 5 with
        | none => none
        | some handshake_type =>
          if handshake_type ≠ 0x01 then none else
          match unpack3 data 6 with
          | none => none
          | some _ =>
            match unpack2 data 9 with
            | none => none
            | some client_version =>
              match byteAt data 43 with
              | none => none
              | some session_id_len =>
                let off1 := 44 + session_id_len
                match unpack2 data off1 with
                | none => none
                | some cipher_suites_len =>
                  let off2 := off1 + 2
                  match cipherLoop data off2 cipher_suites_len 0 [] with
                  | none => none
                  | some cipher_suites =>
                    let off3 := off2 + cipher_suites_len
                    match byteAt data off3 with
                    | none => none
                    | some compression_len =>
                      let off4 := off3 + 1 + compression_len
                      if off4 < data.length then
                        match unpack2 data off4 with
                        | none => none
                        | some extensions_len =>
                          match extLoop data (off4 + 2 + extensions_len) (off4 + 2)
                              ⟨[], none, [], [], []⟩ with
                          | none => none
                          | some st =>
                            some ⟨client_version, cipher_suites, st.extensions, st.sni,
                              st.alpn_protocols, st.supported_versions, st.signature_algorithms⟩
                      else
                        some ⟨client_version, cipher_suites, [], none, [], [], []⟩

/-! ## Definitions used to state the claims -/

/-- ASCII decimal digit. -/
def isDigitChar (c : Char) : Bool := '0' ≤ c && c ≤ '9'

/-- ASCII lowercase letter. -/
def isLowerChar (c : Char) : Bool := 'a' ≤ c && c ≤ 'z'

/-- Character class `[a-z0-9]` of the spec's format regex. -/
def isLowerAlnumChar (c : Char) : Bool := isDigitChar c || isLowerChar c

/-- Character class `[0-9a-f]` of the spec's format regex. -/
def isHexChar (c : Char) : Bool := isDigitChar c || ('a' ≤ c && c ≤ 'f')

/-- The spec's claimed output format, the regex
`[a-z][0-9]{2}[di][0-9]{2}[0-9]{2}[a-z0-9]{2}_[0-9a-f]{12}_[0-9a-f]{12}`
anchored on a whole string, rendered positionally. -/
def ja4_claimed_format (s : List Char) : Bool :=
  s.length == 36 &&
  isLowerChar (s.getD 0 ' ') &&
  isDigitChar (s.getD 1 ' ') && isDigitChar (s.getD 2 ' ') &&
  (s.getD 3 ' ' == 'd' || s.getD 3 ' ' == 'i') &&
  isDigitChar (s.getD 4 ' ') && isDigitChar (s.getD 5 ' ') &&
  isDigitChar (s.getD 6 ' ') && isDigitChar (s.getD 7 ' ') &&
  isLowerAlnumChar (s.getD 8 ' ') && isLowerAlnumChar (s.getD 9 ' ') &&
  s.getD 10 ' ' == '_' &&
  ((List.range 12).all fun i => isHexChar (s.getD (11 + i) ' ')) &&
  s.getD 23 ' ' == '_' &&
  ((List.range 12).all fun i => isHexChar (s.getD (24 + i) ' '))

/-- The 60 bytes of a well-formed one-extension ClientHello record in front
of an SNI host name of `n` bytes: record header (over-length fields unused
by the parser set to zero), handshake header, version `0x0303`, 32-byte
random, empty session id, one cipher suite `0x1301`, no compression, and an
SNI extension whose list/name lengths are consistent with `n` (valid for
`n ≤ 246`, where every length fits in its low byte). -/
def sniPrefixBytes (n : Nat) : List Nat :=
  [0x16, 0x03, 0x03, 0x00, 0x00,
   0x01, 0x00, 0x00, 0x00,
   0x03, 0x03,
   0, 0, 0, 0, 0, 0, 0, 0, 0, 0, 0, 0, 0, 0, 0, 0,
   0, 0, 0, 0, 0, 0, 0, 0, 0, 0, 0, 0, 0, 0, 0, 0,
   0x00,
   0x00, 0x02, 0x13, 0x01,
   0x00,
   0x00, 9 + n,
   0x00, 0x00,
   0x00, 5 + n,
   0x00, 3 + n,
   0x00,
   0x00, n]

/-- Test-input constructor: a complete TLS record whose single extension is
an SNI extension carrying the given host-name bytes. -/
def mkSniBuffer (s : List Nat) : List Nat := sniPrefixBytes s.length ++ s

/-! ## Structural restatements of `calculate_ja4` (named forms of its
local bindings, used to decompose the fingerprint in proofs) -/

/-- The effective version selected by `calculate_ja4` (its `version` local). -/
def effective_version (ch : ClientHello) : Nat :=
  if ch.supported_versions ≠ [] then
    if ch.supported_versions.filter (fun v => !is_grease v) ≠ [] then
      maxNat (ch.supported_versions.filter (fun v => !is_grease v))
    else ch.version
  else ch.version

/-- The SNI-presence character of Section A (its `sni_char` local). -/
def sniChar (ch : ClientHello) : List Char :=
  if pyTruthyStr ch.sni then ['d'] else ['i']

/-- The clamped GREASE-filtered cipher count of Section A. -/
def cipherCount (ch : ClientHello) : Nat :=
  min (ch.cipher_suites.filter (fun c => !is_grease c)).length 99

/-- The clamped GREASE-filtered extension count of Section A. -/
def extCount (ch : ClientHello) : Nat :=
  min (ch.extensions.filter (fun e => !is_grease e)).length 99

/-- Section A as computed by `calculate_ja4`. -/
def sectionA (ch : ClientHello) : List Char :=
  't' :: get_tls_version_string (effective_version ch) ++ sniChar ch ++
    pyDec2 (cipherCount ch) ++ pyDec2 (extCount ch) ++ get_alpn_code ch.alpn_protocols

/-- Section B as computed by `calculate_ja4`. -/
def sectionB (ch : ClientHello) : List Char :=
  compute_hash (joinComma ((sortNats (ch.cipher_suites.filter (fun c => !is_grease c))).map pyHex4))

/-- The Section C extension list: GREASE-filtered, then SNI/ALPN removed. -/
def extFiltered (ch : ClientHello) : List Nat :=
  (ch.extensions.filter (fun e => !is_grease e)).filter (fun e => e ≠ EXT_SNI ∧ e ≠ EXT_ALPN)

/-- Section C as computed by `calculate_ja4`. -/
def sectionC (ch : ClientHello) : List Char :=
  compute_hash (if ch.signature_algorithms ≠ [] then
    joinComma ((sortNats (extFiltered ch)).map pyHex4) ++ '_' ::
      joinComma (ch.signature_algorithms.map pyHex4)
  else joinComma ((sortNats (extFiltered ch)).map pyHex4))

theorem calculate_ja4_eq (ch : ClientHello) :
    calculate_ja4 ch =
      ⟨sectionA ch ++ '_' :: sectionB ch ++ '_' :: sectionC ch,
       sectionA ch, sectionB ch, sectionC ch⟩ := by
  simp [calculate_ja4, sectionA, sectionB, sectionC, effective_version, sniChar,
    cipherCount, extCount, extFiltered, List.append_assoc]

/-! ## Character-class and length facts -/

theorem hexDigitChar_hex (n : Nat) : isHexChar (hexDigitChar n) = true := by
  unfold hexDigitChar
  rw [List.getD_eq_getElem?_getD]
  rcases hn : "0123456789abcdef".toList[n]? with _ | c
  · decide
  · have hm : c ∈ "0123456789abcdef".toList := List.getElem?_mem hn
    simp only [Option.getD_some]
    fin_cases hm <;> decide

theorem decDigitChar_digit (n : Nat) : isDigitChar (decDigitChar n) = true := by
  unfold decDigitChar
  rw [List.getD_eq_getElem?_getD]
  rcases hn : "0123456789".toList[n]? with _ | c
  · decide
  · have hm : c ∈ "0123456789".toList := List.getElem?_mem hn
    simp only [Option.getD_some]
    fin_cases hm <;> decide

theorem pyDec2_spec (n : Nat) (h : n ≤ 99) :
    (pyDec2 n).length = 2 ∧ (pyDec2 n).all isDigitChar = true := by
  interval_cases n <;> exact ⟨by decide, by decide⟩

theorem tls_version_str_mem (v : Nat) :
    get_tls_version_string v ∈
      ([['1', '3'], ['1', '2'], ['1', '1'], ['1', '0'],
        ['s', '3'], ['d', '2'], ['d', '1'], ['0', '0']] : List (List Char)) := by
  unfold get_tls_version_string TLS_VERSIONS
  simp only [List.lookup]
  repeat' split
  all_goals simp_all

theorem tls_version_str_length (v : Nat) : (get_tls_version_string v).length = 2 := by
  have h := tls_version_str_mem v
  simp only [List.mem_cons, List.not_mem_nil, or_false] at h
  rcases h with h | h | h | h | h | h | h | h <;> rw [h] <;> rfl

theorem get_alpn_code_length (ps : List (List Char)) : (get_alpn_code ps).length = 2 := by
  unfold get_alpn_code
  split
  · rfl
  · split <;> rfl

theorem sha256_length (msg : List Nat) : (sha256 msg).length = 32 := by
  simp [sha256, wordBytes]

theorem bytesToHex_length (bs : List Nat) : (bytesToHex bs).length = 2 * bs.length := by
  induction bs with
  | nil => rfl
  | cons b bs ih => simp [bytesToHex, List.flatMap_cons] at ih ⊢; omega

theorem hexdigest_length (msg : List Nat) : (hexdigest msg).length = 64 := by
  simp [hexdigest, bytesToHex_length, sha256_length]

theorem compute_hash_length (s : List Char) : (compute_hash s).length = 12 := by
  simp [compute_hash, List.length_take, hexdigest_length]

theorem bytesToHex_hex (bs : List Nat) : ∀ c ∈ bytesToHex bs, isHexChar c = true := by
  intro c hc
  simp only [bytesToHex, List.mem_flatMap, List.mem_cons, List.mem_singleton] at hc
  obtain ⟨b, _, hc | hc | hc⟩ := hc
  · rw [hc]; exact hexDigitChar_hex _
  · rw [hc]; exact hexDigitChar_hex _
  · cases hc

theorem compute_hash_hex (s : List Char) : (compute_hash s).all isHexChar = true := by
  rw [List.all_eq_true]
  intro c hc
  exact bytesToHex_hex _ c (List.take_subset _ _ hc)

/-! ## Sorting facts -/

theorem sortNats_sorted (l : List Nat) : List.Sorted (· ≤ ·) (sortNats l) :=
  List.sorted_insertionSort _ l

theorem sortNats_perm (l : List Nat) : (sortNats l).Perm l :=
  List.perm_insertionSort _ l

theorem sortNats_eq_of_perm {l₁ l₂ : List Nat} (h : l₁.Perm l₂) : sortNats l₁ = sortNats l₂ :=
  List.eq_of_perm_of_sorted ((sortNats_perm l₁).trans (h.trans (sortNats_perm l₂).symm))
    (sortNats_sorted l₁) (sortNats_sorted l₂)

theorem maxNat_eq_max? (l : List Nat) (h : l ≠ []) : l.max? = some (maxNat l) := by
  rcases l with _ | ⟨a, as⟩
  · exact absurd rfl h
  · show some (as.foldl max a) = some (maxNat (a :: as))
    simp [maxNat, List.foldl_cons, Nat.zero_max]

set_option maxRecDepth 8000

/-! ## Further shape facts -/

theorem sniChar_cases (ch : ClientHello) : sniChar ch = ['d'] ∨ sniChar ch = ['i'] := by
  unfold sniChar
  split
  · exact Or.inl rfl
  · exact Or.inr rfl

theorem sectionA_length (ch : ClientHello) : (sectionA ch).length = 10 := by
  have h1 := tls_version_str_length (effective_version ch)
  have h2 := (pyDec2_spec (cipherCount ch) (Nat.min_le_right _ _)).1
  have h3 := (pyDec2_spec (extCount ch) (Nat.min_le_right _ _)).1
  have h4 := get_alpn_code_length ch.alpn_protocols
  rcases sniChar_cases ch with h5 | h5 <;>
    simp [sectionA, h1, h2, h3, h4, h5]

theorem take_eq_left_of_len {α : Type} (x y : List α) (n : Nat) (h : x.length = n) :
    (x ++ y).take n = x := by
  rw [List.take_append_eq_append_take, List.take_of_length_le (le_of_eq h), h]
  simp

theorem effective_version_eq_spec (ch : ClientHello) :
    effective_version ch =
      ((ch.supported_versions.filter (fun v => !is_grease v)).max?).getD ch.version := by
  unfold effective_version
  by_cases hsv : ch.supported_versions = []
  · simp [hsv]
  · simp only [hsv, ne_eq, not_false_eq_true, if_true]
    by_cases hr : ch.supported_versions.filter (fun v => !is_grease v) = []
    · simp [hr]
    · rw [maxNat_eq_max? _ hr]
      simp [hr]

/-! ## Claim theorems -/

/-- Claim C3, counterexample: the ClientHello with version `0x0300`
(mapped to `s3`) and first ALPN protocol `"H2"` yields the full string
`ts3i0000H2_…`, whose version characters are not decimal digits and whose
ALPN characters are not lowercase, so the claimed format regex
`^[a-z][0-9]{2}[di][0-9]{2}[0-9]{2}[a-z0-9]{2}_[0-9a-f]{12}_[0-9a-f]{12}$`
rejects the output of `calculate_ja4`. -/
theorem C3_counterexample :
    ja4_claimed_format
      (calculate_ja4 ⟨0x0300, [], [], none, [['H', '2']], [], []⟩).full = false := by
  decide

/-- Claim C3 (amended): for every ClientHello, the full string is
`section_a ++ "_" ++ section_b ++ "_" ++ section_c` where `section_a` is
exactly 10 characters — `t`, a two-character version code drawn from the
fixed table (`13`, `12`, `11`, `10`, `s3`, `d2`, `d1`, `00`, so not always
two decimal digits), `d` or `i`, two two-digit decimal counts, and a
two-character ALPN code (not constrained to `[a-z0-9]`) — and `section_b`
and `section_c` are each 12 lowercase-hex characters. -/
theorem C3_format_amended (ch : ClientHello) :
    ∃ vs sc cc ec al b c,
      (calculate_ja4 ch).a = 't' :: vs ++ sc ++ cc ++ ec ++ al ∧
      (calculate_ja4 ch).full = (calculate_ja4 ch).a ++ '_' :: b ++ '_' :: c ∧
      (calculate_ja4 ch).a.length = 10 ∧
      vs ∈ ([['1', '3'], ['1', '2'], ['1', '1'], ['1', '0'],
        ['s', '3'], ['d', '2'], ['d', '1'], ['0', '0']] : List (List Char)) ∧
      (sc = ['d'] ∨ sc = ['i']) ∧
      cc.length = 2 ∧ cc.all isDigitChar = true ∧
      ec.length = 2 ∧ ec.all isDigitChar = true ∧
      al.length = 2 ∧
      b.length = 12 ∧ b.all isHexChar = true ∧
      c.length = 12 ∧ c.all isHexChar = true := by
  refine ⟨get_tls_version_string (effective_version ch), sniChar ch, pyDec2 (cipherCount ch),
    pyDec2 (extCount ch), get_alpn_code ch.alpn_protocols, sectionB ch, sectionC ch,
    ?_, ?_, ?_, tls_version_str_mem _, sniChar_cases ch,
    (pyDec2_spec _ (Nat.min_le_right _ _)).1, (pyDec2_spec _ (Nat.min_le_right _ _)).2,
    (pyDec2_spec _ (Nat.min_le_right _ _)).1, (pyDec2_spec _ (Nat.min_le_right _ _)).2,
    get_alpn_code_length _,
    compute_hash_length _, compute_hash_hex _, compute_hash_length _, compute_hash_hex _⟩
  · rw [calculate_ja4_eq]
    try rfl
  · rw [calculate_ja4_eq]
    try rfl
  · rw [calculate_ja4_eq]
    exact sectionA_length ch

/-- Claim C5: the effective TLS version of Section A is the maximum
GREASE-filtered value of `supported_versions` when that filtered list is
non-empty (`max?` of the filtered list), and the ClientHello `version`
field otherwise — covering both an absent extension and a GREASE-only
one — and the version is mapped through the fixed table with every other
code mapping to `00`. -/
theorem C5_version_selection :
    (∀ ch : ClientHello, ((calculate_ja4 ch).a.drop 1).take 2 =
      get_tls_version_string
        (((ch.supported_versions.filter (fun v => !is_grease v)).max?).getD ch.version)) ∧
    get_tls_version_string 0x0304 = ['1', '3'] ∧
    get_tls_version_string 0x0303 = ['1', '2'] ∧
    get_tls_version_string 0x0302 = ['1', '1'] ∧
    get_tls_version_string 0x0301 = ['1', '0'] ∧
    get_tls_version_string 0x0300 = ['s', '3'] ∧
    get_tls_version_string 0xfefd = ['d', '2'] ∧
    get_tls_version_string 0xfeff = ['d', '1'] ∧
    ∀ v : Nat, v ∉ ([0x0304, 0x0303, 0x0302, 0x0301, 0x0300, 0xfefd, 0xfeff] : List Nat) →
      get_tls_version_string v = ['0', '0'] := by
  refine ⟨?_, by decide, by decide, by decide, by decide, by decide, by decide, by decide, ?_⟩
  · intro ch
    rw [calculate_ja4_eq, ← effective_version_eq_spec]
    show ((sectionA ch).drop 1).take 2 = _
    have hdrop : (sectionA ch).drop 1 =
        get_tls_version_string (effective_version ch) ++ sniChar ch ++
          pyDec2 (cipherCount ch) ++ pyDec2 (extCount ch) ++
          get_alpn_code ch.alpn_protocols := rfl
    rw [hdrop]
    simp only [List.append_assoc]
    rw [take_eq_left_of_len _ _ 2 (tls_version_str_length _)]
  · intro v hv
    simp only [List.mem_cons, List.not_mem_nil, or_false, not_or] at hv
    obtain ⟨h1, h2, h3, h4, h5, h6, h7⟩ := hv
    have b1 : (v == 772) = false := beq_eq_false_iff_ne.mpr h1
    have b2 : (v == 771) = false := beq_eq_false_iff_ne.mpr h2
    have b3 : (v == 770) = false := beq_eq_false_iff_ne.mpr h3
    have b4 : (v == 769) = false := beq_eq_false_iff_ne.mpr h4
    have b5 : (v == 768) = false := beq_eq_false_iff_ne.mpr h5
    have b6 : (v == 65277) = false := beq_eq_false_iff_ne.mpr h6
    have b7 : (v == 65279) = false := beq_eq_false_iff_ne.mpr h7
    simp [get_tls_version_string, TLS_VERSIONS, List.lookup, b1, b2, b3, b4, b5, b6, b7]

/-- Claim C5, witness: the mapping-table branch applied at the concrete
unlisted code `0x9999`. -/
theorem C5_witness : get_tls_version_string 0x9999 = ['0', '0'] :=
  C5_version_selection.2.2.2.2.2.2.2.2 0x9999 (by decide)

/-- Claim C6: Section B is the truncated SHA-256 of the comma-joined
4-digit-hex rendering of an ascending-sorted copy of the GREASE-filtered
cipher suites. -/
theorem C6_section_b (ch : ClientHello) :
    ∃ S : List Nat, S.Perm (ch.cipher_suites.filter (fun c => !is_grease c)) ∧
      List.Sorted (· ≤ ·) S ∧
      (calculate_ja4 ch).b = compute_hash (joinComma (S.map pyHex4)) :=
  ⟨sortNats (ch.cipher_suites.filter (fun c => !is_grease c)), sortNats_perm _,
    sortNats_sorted _, by rw [calculate_ja4_eq]; rfl⟩

/-- Claim C7: Section C is the truncated SHA-256 of the comma-joined
4-digit-hex rendering of an ascending-sorted copy of the GREASE-filtered
extensions with SNI (`0x0000`) and ALPN (`0x0010`) removed, followed —
exactly when `signature_algorithms` is non-empty — by an underscore and
the signature algorithms in original wire order (not sorted). -/
theorem C7_section_c (ch : ClientHello) :
    EXT_SNI = 0x0000 ∧ EXT_ALPN = 0x0010 ∧
    ∃ S : List Nat,
      S.Perm ((ch.extensions.filter (fun e => !is_grease e)).filter
        (fun e => e ≠ EXT_SNI ∧ e ≠ EXT_ALPN)) ∧
      List.Sorted (· ≤ ·) S ∧
      (calculate_ja4 ch).c =
        compute_hash (if ch.signature_algorithms = [] then joinComma (S.map pyHex4)
          else joinComma (S.map pyHex4) ++ '_' ::
            joinComma (ch.signature_algorithms.map pyHex4)) := by
  refine ⟨rfl, rfl, sortNats (extFiltered ch), sortNats_perm _, sortNats_sorted _, ?_⟩
  rw [calculate_ja4_eq]
  show sectionC ch = _
  unfold sectionC
  by_cases h : ch.signature_algorithms = [] <;> simp [h]

theorem calc_a (ch : ClientHello) : (calculate_ja4 ch).a = sectionA ch := by
  rw [calculate_ja4_eq]

theorem calc_b (ch : ClientHello) : (calculate_ja4 ch).b = sectionB ch := by
  rw [calculate_ja4_eq]

theorem calc_c (ch : ClientHello) : (calculate_ja4 ch).c = sectionC ch := by
  rw [calculate_ja4_eq]

/-- Claim C8, counterexample: with GREASE-only ciphers and extensions but a
non-empty `signature_algorithms`, Section C hashes `"_0403"`, not the empty
string, so it differs from the empty-string hash the claim requires. -/
theorem C8_counterexample :
    (calculate_ja4 ⟨0x0303, [0x0a0a], [0x0a0a], none, [], [], [0x0403]⟩).c ≠
      compute_hash [] := by
  decide

/-- Claim C8 (amended): for every ClientHello whose cipher suites and
extensions are all GREASE values and whose `signature_algorithms` list is
empty, Section A's two counts are `00` and Sections B and C both equal the
truncated hash of the empty string. (The original claim omitted the
`signature_algorithms` condition; a non-empty list is appended to the
Section C preimage after an underscore even when the extension list
contributes nothing.) -/
theorem C8_grease_only (ch : ClientHello)
    (hc : ∀ c ∈ ch.cipher_suites, is_grease c = true)
    (he : ∀ e ∈ ch.extensions, is_grease e = true)
    (hs : ch.signature_algorithms = []) :
    ((calculate_ja4 ch).a.drop 4).take 4 = ['0', '0', '0', '0'] ∧
    (calculate_ja4 ch).b = compute_hash [] ∧
    (calculate_ja4 ch).c = compute_hash [] := by
  have hcf : ch.cipher_suites.filter (fun c => !is_grease c) = [] := by
    rw [List.filter_eq_nil_iff]
    intro a ha
    simp [hc a ha]
  have hef : ch.extensions.filter (fun e => !is_grease e) = [] := by
    rw [List.filter_eq_nil_iff]
    intro a ha
    simp [he a ha]
  obtain ⟨x, y, hvs⟩ := List.length_eq_two.mp (tls_version_str_length (effective_version ch))
  have h0 : pyDec2 0 = ['0', '0'] := by decide
  refine ⟨?_, ?_, ?_⟩
  · rw [calc_a]
    have hcc : cipherCount ch = 0 := by simp [cipherCount, hcf]
    have hec : extCount ch = 0 := by simp [extCount, hef]
    unfold sectionA
    rw [hvs, hcc, hec, h0]
    rcases sniChar_cases ch with hsc | hsc <;> rw [hsc] <;> simp
  · rw [calc_b]
    unfold sectionB
    rw [hcf]
    rfl
  · rw [calc_c]
    unfold sectionC extFiltered
    rw [hs, hef]
    simp
    rfl

/-- Claim C8, witness: the amended statement applied to a concrete
ClientHello with GREASE-only cipher and extension lists and no signature
algorithms. -/
theorem C8_witness :
    (∀ c ∈ ([0x0a0a] : List Nat), is_grease c = true) ∧
    (calculate_ja4 ⟨0x0303, [0x0a0a], [0x1a1a], none, [], [], []⟩).b = compute_hash [] :=
  ⟨by decide,
    (C8_grease_only ⟨0x0303, [0x0a0a], [0x1a1a], none, [], [], []⟩
      (by decide) (by decide) rfl).2.1⟩

/-- Claim C9: permuting `cipher_suites` or `extensions` without changing
multiset membership leaves the whole fingerprint (hence its `full` string)
unchanged, because both lists are GREASE-filtered, counted and sorted
before use. -/
theorem C9_order_independence (ch1 ch2 : ClientHello)
    (hv : ch1.version = ch2.version)
    (hc : ch1.cipher_suites.Perm ch2.cipher_suites)
    (he : ch1.extensions.Perm ch2.extensions)
    (hs : ch1.sni = ch2.sni)
    (ha : ch1.alpn_protocols = ch2.alpn_protocols)
    (hsv : ch1.supported_versions = ch2.supported_versions)
    (hsa : ch1.signature_algorithms = ch2.signature_algorithms) :
    calculate_ja4 ch1 = calculate_ja4 ch2 := by
  have hcf := hc.filter (fun c => !is_grease c)
  have hef := he.filter (fun e => !is_grease e)
  have hccount : cipherCount ch1 = cipherCount ch2 := by
    simp [cipherCount, hcf.length_eq]
  have hecount : extCount ch1 = extCount ch2 := by
    simp [extCount, hef.length_eq]
  have hev : effective_version ch1 = effective_version ch2 := by
    simp [effective_version, hsv, hv]
  have hsnic : sniChar ch1 = sniChar ch2 := by
    simp [sniChar, hs]
  have hsecA : sectionA ch1 = sectionA ch2 := by
    unfold sectionA
    rw [hev, hsnic, hccount, hecount, ha]
  have hsecB : sectionB ch1 = sectionB ch2 := by
    unfold sectionB
    rw [sortNats_eq_of_perm hcf]
  have hfil : (extFiltered ch1).Perm (extFiltered ch2) :=
    hef.filter (fun e => decide (e ≠ EXT_SNI ∧ e ≠ EXT_ALPN))
  have hsecC : sectionC ch1 = sectionC ch2 := by
    unfold sectionC
    rw [sortNats_eq_of_perm hfil, hsa]
  rw [calculate_ja4_eq, calculate_ja4_eq, hsecA, hsecB, hsecC]

/-- Claim C9, witness: two concrete ClientHello values with permuted cipher
and extension lists produce the same fingerprint. -/
theorem C9_witness :
    ([0x1301, 0x1302, 0xc02b] : List Nat).Perm [0xc02b, 0x1301, 0x1302] ∧
    ([0x002b, 0x000d, 0x0033] : List Nat).Perm [0x0033, 0x002b, 0x000d] ∧
    calculate_ja4 ⟨0x0303, [0x1301, 0x1302, 0xc02b], [0x002b, 0x000d, 0x0033],
        none, [], [], []⟩ =
      calculate_ja4 ⟨0x0303, [0xc02b, 0x1301, 0x1302], [0x0033, 0x002b, 0x000d],
        none, [], [], []⟩ :=
  ⟨by decide, by decide,
    C9_order_independence _ _ rfl (by decide) (by decide) rfl rfl rfl rfl⟩

/-- Claim C10: the SNI marker (fourth character of Section A) is `i` when
`sni` is the empty-but-present string, exactly as when it is absent, and is
`d` precisely when `sni` is a present non-empty string — Python truthiness
of the field, where `None` and `""` coincide. -/
theorem C10_sni_truthiness (ch : ClientHello) :
    (ch.sni = some [] → (calculate_ja4 ch).a[3]? = some 'i') ∧
    ((calculate_ja4 ch).a[3]? = some 'd' ↔ ∃ s, ch.sni = some s ∧ s ≠ []) := by
  rw [calc_a]
  obtain ⟨x, y, hvs⟩ := List.length_eq_two.mp (tls_version_str_length (effective_version ch))
  rcases hsni : ch.sni with _ | s
  · have hsc : sniChar ch = ['i'] := by simp [sniChar, pyTruthyStr, hsni]
    have hget : (sectionA ch)[3]? = some 'i' := by
      unfold sectionA
      rw [hvs, hsc]
      simp
    rw [hget]
    exact ⟨fun _ => rfl, by simp [hsni]⟩
  · rcases s with _ | ⟨c0, t⟩
    · have hsc : sniChar ch = ['i'] := by simp [sniChar, pyTruthyStr, hsni]
      have hget : (sectionA ch)[3]? = some 'i' := by
        unfold sectionA
        rw [hvs, hsc]
        simp
      rw [hget]
      exact ⟨fun _ => rfl, by simp [hsni]⟩
    · have hsc : sniChar ch = ['d'] := by simp [sniChar, pyTruthyStr, hsni]
      have hget : (sectionA ch)[3]? = some 'd' := by
        unfold sectionA
        rw [hvs, hsc]
        simp
      rw [hget]
      refine ⟨fun hcontra => ?_, by simp [hsni]⟩
      simp at hcontra

/-- Claim C10, witness: a ClientHello with a present-but-empty host name
gets the SNI-absent marker `i`. -/
theorem C10_witness :
    (⟨0x0303, [], [], some [], [], [], []⟩ : ClientHello).sni = some [] ∧
    (calculate_ja4 ⟨0x0303, [], [], some [], [], [], []⟩).a[3]? = some 'i' :=
  ⟨rfl, (C10_sni_truthiness ⟨0x0303, [], [], some [], [], [], []⟩).1 rfl⟩

/-- Claim C1 (amended): every buffer shorter than 9 bytes fails to parse
and produces no ClientHello; the parser's single failure value is `None`
(the code has no typed failure taxonomy, so no distinguished
`TruncatedField` exists), and being a total function it cannot panic or
read out of bounds. The record-header length field, by contrast, is read
but never validated, so an over-claiming record length does not by itself
cause a failure — see the counterexample. -/
theorem C1_short_buffer_fails (data : List Nat) (h : data.length < 9) :
    parse_client_hello_raw data = none := by
  rcases data with _ | ⟨b0, _ | ⟨b1, _ | ⟨b2, _ | ⟨b3, _ |
    ⟨b4, _ | ⟨b5, _ | ⟨b6, _ | ⟨b7, _ | ⟨b8, rest⟩⟩⟩⟩⟩⟩⟩⟩⟩
  all_goals try rfl
  all_goals first
  | (exfalso; simp only [List.length_cons] at h; omega)
  | simp [parse_client_hello_raw, byteAt, unpack2, unpack3]

/-- Claim C1, witness: the one-byte buffer `[0x16]` is shorter than 9 bytes
and the parser rejects it with its failure value. -/
theorem C1_witness :
    ([0x16] : List Nat).length < 9 ∧ parse_client_hello_raw [0x16] = none :=
  ⟨by decide, C1_short_buffer_fails [0x16] (by decide)⟩

/-- A complete 47-byte ClientHello record whose record-header length field
(bytes 3–4) claims `0xFFFF` following bytes although only 42 are present. -/
def overclaimBuffer : List Nat :=
  [0x16, 0x03, 0x03, 0xFF, 0xFF,
   0x01, 0x00, 0x00, 0x26,
   0x03, 0x03,
   0, 0, 0, 0, 0, 0, 0, 0, 0, 0, 0, 0, 0, 0, 0, 0,
   0, 0, 0, 0, 0, 0, 0, 0, 0, 0, 0, 0, 0, 0, 0, 0,
   0x00,
   0x00, 0x00,
   0x00]

/-- Claim C1, counterexample: the record length field claims far more bytes
than are present, yet the parser succeeds and returns a ClientHello — it
reads the record length at offset 3 and never validates it — contradicting
the claimed `TruncatedField` failure and the claimed absence of a produced
value. -/
theorem C1_counterexample :
    parse_client_hello_raw overclaimBuffer ≠ none ∧
    parse_client_hello_raw overclaimBuffer =
      some ⟨0x0303, [], [], none, [], [], []⟩ := by
  have hp : parse_client_hello_raw overclaimBuffer =
      some ⟨0x0303, [], [], none, [], [], []⟩ := by
    simp [parse_client_hello_raw, overclaimBuffer, byteAt, unpack2, unpack3, cipherLoop]
  exact ⟨by rw [hp]; simp, hp⟩

/-- The supported_versions entries the loop extracts starting at step
offset `i`: one 2-byte big-endian code per two bytes of declared length,
read at byte offsets `1 + i + 2k` and `2 + i + 2k` of the extension body. -/
def svEntries (ed : List Nat) (i count : Nat) : List Nat :=
  (List.range count).map (fun k => ed.getD (1 + i + 2 * k) 0 * 256 + ed.getD (2 + i + 2 * k) 0)

/-- The signature_algorithms entries, read at byte offsets `2 + i + 2k`
and `3 + i + 2k` of the extension body. -/
def saEntries (ed : List Nat) (i count : Nat) : List Nat :=
  (List.range count).map (fun k => ed.getD (2 + i + 2 * k) 0 * 256 + ed.getD (3 + i + 2 * k) 0)

theorem svEntries_succ (ed : List Nat) (i count : Nat) :
    svEntries ed i (count + 1) =
      (ed.getD (1 + i) 0 * 256 + ed.getD (2 + i) 0) :: svEntries ed (i + 2) count := by
  unfold svEntries
  rw [List.range_succ_eq_map, List.map_cons, List.map_map]
  refine congrArg₂ _ (by norm_num) ?_
  refine congrArg₂ _ ?_ rfl
  funext k
  simp only [Function.comp_apply]
  rw [(by omega : 1 + i + 2 * Nat.succ k = 1 + (i + 2) + 2 * k),
    (by omega : 2 + i + 2 * Nat.succ k = 2 + (i + 2) + 2 * k)]

theorem saEntries_succ (ed : List Nat) (i count : Nat) :
    saEntries ed i (count + 1) =
      (ed.getD (2 + i) 0 * 256 + ed.getD (3 + i) 0) :: saEntries ed (i + 2) count := by
  unfold saEntries
  rw [List.range_succ_eq_map, List.map_cons, List.map_map]
  refine congrArg₂ _ (by norm_num) ?_
  refine congrArg₂ _ ?_ rfl
  funext k
  simp only [Function.comp_apply]
  rw [(by omega : 2 + i + 2 * Nat.succ k = 2 + (i + 2) + 2 * k),
    (by omega : 3 + i + 2 * Nat.succ k = 3 + (i + 2) + 2 * k)]

theorem unpack2_eq_getD (d : List Nat) (i : Nat) (h : i + 1 < d.length) :
    unpack2 d i = some (d.getD i 0 * 256 + d.getD (i + 1) 0) := by
  unfold unpack2
  rw [List.getElem?_eq_getElem (by omega), List.getElem?_eq_getElem h]
  rw [List.getD_eq_getElem?_getD, List.getD_eq_getElem?_getD,
    List.getElem?_eq_getElem (by omega : i < d.length), List.getElem?_eq_getElem h]
  rfl

theorem svLoop_spec (ed : List Nat) (L : Nat) (hlen : L + 1 ≤ ed.length) :
    ∀ fuel i acc, L - i = fuel → (L - i) % 2 = 0 →
      svLoop ed L i acc = acc ++ svEntries ed i ((L - i) / 2) := by
  intro fuel
  induction fuel using Nat.strong_induction_on with
  | _ fuel ih =>
    intro i acc hfuel hpar
    rw [svLoop]
    by_cases hi : i < L
    · have hle : i + 2 ≤ L := by omega
      have hu : unpack2 ed (1 + i) = some (ed.getD (1 + i) 0 * 256 + ed.getD (1 + i + 1) 0) :=
        unpack2_eq_getD ed (1 + i) (by omega)
      rw [if_pos hi, hu]
      show svLoop ed L (i + 2) (acc ++ [_]) = _
      rw [ih (L - (i + 2)) (by omega) (i + 2) _ rfl (by omega)]
      rw [show (L - i) / 2 = (L - (i + 2)) / 2 + 1 by omega, svEntries_succ]
      rw [List.append_assoc]
      refine congrArg _ ?_
      show [_] ++ _ = _
      rw [List.singleton_append]
      refine congrArg₂ _ ?_ rfl
      congr 2
      omega
    · rw [if_neg hi]
      have : L - i = 0 := by omega
      rw [this]
      simp [svEntries]

theorem saLoop_spec (ed : List Nat) (L : Nat) (hlen : L + 2 ≤ ed.length) :
    ∀ fuel i acc, L - i = fuel → (L - i) % 2 = 0 →
      saLoop ed L i acc = acc ++ saEntries ed i ((L - i) / 2) := by
  intro fuel
  induction fuel using Nat.strong_induction_on with
  | _ fuel ih =>
    intro i acc hfuel hpar
    rw [saLoop]
    by_cases hi : i < L
    · have hle : i + 2 ≤ L := by omega
      have hu : unpack2 ed (2 + i) = some (ed.getD (2 + i) 0 * 256 + ed.getD (2 + i + 1) 0) :=
        unpack2_eq_getD ed (2 + i) (by omega)
      rw [if_pos hi, hu]
      show saLoop ed L (i + 2) (acc ++ [_]) = _
      rw [ih (L - (i + 2)) (by omega) (i + 2) _ rfl (by omega)]
      rw [show (L - i) / 2 = (L - (i + 2)) / 2 + 1 by omega, saEntries_succ]
      rw [List.append_assoc]
      refine congrArg _ ?_
      show [_] ++ _ = _
      rw [List.singleton_append]
      refine congrArg₂ _ ?_ rfl
      congr 2
      omega
    · rw [if_neg hi]
      have : L - i = 0 := by omega
      rw [this]
      simp [saEntries]

/-- Claim C4, counterexample: a supported_versions body whose first byte is
4 followed by four bytes of data (plus spare bytes) yields two parsed
entries, not four — the 1-byte prefix is a length in bytes, not a count of
entries as claimed. -/
theorem C4_counterexample :
    ([4, 0, 1, 0, 2, 0, 3, 0, 4] : List Nat)[0]? = some 4 ∧
    parseSvData [4, 0, 1, 0, 2, 0, 3, 0, 4] [] = [1, 2] ∧
    (parseSvData [4, 0, 1, 0, 2, 0, 3, 0, 4] []).length ≠ 4 := by
  refine ⟨rfl, ?_, ?_⟩ <;> simp [parseSvData, byteAt, svLoop, unpack2]

/-- Claim C4 (amended): in both deep-decoded list extensions the prefix is
a length in bytes, not an entry count. The supported_versions scan reads a
1-byte byte-length `L` and then one 2-byte big-endian code per two bytes of
`L` (so `L / 2` entries for even `L` when the body is long enough); the
signature_algorithms scan reads a 2-byte byte-length `L` and likewise
extracts `L / 2` entries, at body offsets shifted by its 2-byte prefix. -/
theorem C4_length_prefix_semantics :
    (∀ ed L, ed[0]? = some L → L % 2 = 0 → L + 1 ≤ ed.length →
      parseSvData ed [] = svEntries ed 0 (L / 2)) ∧
    (∀ ed L, unpack2 ed 0 = some L → L % 2 = 0 → L + 2 ≤ ed.length →
      parseSaData ed [] = saEntries ed 0 (L / 2)) ∧
    (∀ ed i count, (svEntries ed i count).length = count) ∧
    (∀ ed i count, (saEntries ed i count).length = count) := by
  refine ⟨?_, ?_, ?_, ?_⟩
  · intro ed L h0 hpar hlen
    unfold parseSvData byteAt
    rw [h0]
    have h := svLoop_spec ed L hlen (L - 0) 0 [] rfl (by omega)
    simpa using h
  · intro ed L h0 hpar hlen
    unfold parseSaData
    rw [h0]
    have h := saLoop_spec ed L hlen (L - 0) 0 [] rfl (by omega)
    simpa using h
  · intro ed i count
    simp [svEntries]
  · intro ed i count
    simp [saEntries]

/-- Claim C4, witness: the amended statement applied to a concrete
supported_versions body of declared byte length 2 holding the single
version code `0x0304`. -/
theorem C4_witness :
    ([2, 3, 4] : List Nat)[0]? = some 2 ∧
    parseSvData [2, 3, 4] [] = svEntries [2, 3, 4] 0 1 ∧
    svEntries [2, 3, 4] 0 1 = [0x0304] :=
  ⟨rfl, C4_length_prefix_semantics.1 [2, 3, 4] 2 rfl (by decide) (by decide), by decide⟩



/-- The fixed 60-byte prefix length of the SNI test record. -/
theorem sniPrefix_length (n : Nat) : (sniPrefixBytes n).length = 60 := by
  simp [sniPrefixBytes]

theorem mkSniBuffer_length (s : List Nat) : (mkSniBuffer s).length = 60 + s.length := by
  simp [mkSniBuffer, sniPrefix_length]

/-- The extension body the parser slices out of the SNI test record. -/
theorem sniSlice_eq (s : List Nat) :
    pySlice (mkSniBuffer s) 55 (55 + (5 + s.length)) =
      [0, 3 + s.length, 0, 0, s.length] ++ s := by
  unfold pySlice mkSniBuffer
  rw [List.take_append_eq_append_take, sniPrefix_length,
    List.take_of_length_le (by rw [sniPrefix_length]; omega),
    (by omega : 55 + (5 + s.length) - 60 = s.length), List.take_length,
    List.drop_append_eq_append_drop, sniPrefix_length,
    (by omega : 55 - 60 = 0), List.drop_zero]
  refine congrArg₂ _ ?_ rfl
  simp [sniPrefixBytes]

/-- The SNI body scan of the test record fails exactly by the UTF-8
decode of its host-name bytes. -/
theorem parseSniData_mk (s : List Nat) (hdec : utf8Decode s = none) :
    parseSniData (0 :: (3 + s.length) :: 0 :: 0 :: s.length :: s) = none := by
  show parseSniData ([0, 3 + s.length, 0, 0, s.length] ++ s) = none
  unfold parseSniData
  have u0 : unpack2 ([0, 3 + s.length, 0, 0, s.length] ++ s) 0 = some (3 + s.length) := by
    simp [unpack2]
  have u2 : byteAt ([0, 3 + s.length, 0, 0, s.length] ++ s) 2 = some 0 := by
    simp [byteAt]
  have u3 : unpack2 ([0, 3 + s.length, 0, 0, s.length] ++ s) 3 = some s.length := by
    simp [unpack2]
  have hsl : pySlice ([0, 3 + s.length, 0, 0, s.length] ++ s) 5 (5 + s.length) = s := by
    unfold pySlice
    rw [(by simp : 5 + s.length = ([0, 3 + s.length, 0, 0, s.length] : List Nat).length + s.length),
      List.take_append, List.take_length, List.drop_append_eq_append_drop]
    simp
  simp only [u0, u2, u3, hsl, hdec]



/-- The extension loop of the SNI test record: records the extension type,
drops the undecodable host name, keeps parsing, and terminates cleanly. -/
theorem extLoop_mk (s : List Nat) (hlen : s.length ≤ 246) (hdec : utf8Decode s = none) :
    extLoop (mkSniBuffer s) (51 + (9 + s.length)) 51 ⟨[], none, [], [], []⟩ =
      some ⟨[0], none, [], [], []⟩ := by
  have f51 : unpack2 (mkSniBuffer s) 51 = some 0 := by
    simp [unpack2, mkSniBuffer, sniPrefixBytes]
  have f53 : unpack2 (mkSniBuffer s) 53 = some (5 + s.length) := by
    simp [unpack2, mkSniBuffer, sniPrefixBytes]
  have hpos : 0 < 5 + s.length := by omega
  rw [extLoop, if_pos (by omega : 51 < 51 + (9 + s.length))]
  simp only [f51, f53]
  simp [EXT_SNI, hpos, sniSlice_eq s, parseSniData_mk s hdec]
  rw [extLoop, if_neg (by omega)]



/-- Claim C2 (amended): an SNI extension whose host-name bytes are not
valid UTF-8 does not make the parser fail: the SNI sub-decode is wrapped in
a local swallow-all handler, so for every such host-name byte list the
parser returns a best-effort ClientHello whose `sni` field is `None` (and,
being a total function, it never panics). The code produces no typed
`InvalidEncoding` failure; its only failure value is `None`, and it is not
used here. -/
theorem C2_invalid_sni_non_fatal (s : List Nat) (hlen : s.length ≤ 246) (hdec : utf8Decode s = none) :
    parse_client_hello_raw (mkSniBuffer s) =
      some ⟨0x0303, [0x1301], [0x0000], none, [], [], []⟩ := by
  have e0 : byteAt (mkSniBuffer s) 0 = some 0x16 := by
    simp [byteAt, mkSniBuffer, sniPrefixBytes]
  have e1 : unpack2 (mkSniBuffer s) 1 = some 0x0303 := by
    simp [unpack2, mkSniBuffer, sniPrefixBytes]
  have e3 : unpack2 (mkSniBuffer s) 3 = some 0 := by
    simp [unpack2, mkSniBuffer, sniPrefixBytes]
  have e5 : byteAt (mkSniBuffer s) 5 = some 1 := by
    simp [byteAt, mkSniBuffer, sniPrefixBytes]
  have e6 : unpack3 (mkSniBuffer s) 6 = some 0 := by
    simp [unpack3, mkSniBuffer, sniPrefixBytes]
  have e9 : unpack2 (mkSniBuffer s) 9 = some 0x0303 := by
    simp [unpack2, mkSniBuffer, sniPrefixBytes]
  have e43 : byteAt (mkSniBuffer s) 43 = some 0 := by
    simp [byteAt, mkSniBuffer, sniPrefixBytes]
  have e44 : unpack2 (mkSniBuffer s) 44 = some 2 := by
    simp [unpack2, mkSniBuffer, sniPrefixBytes]
  have ecl : cipherLoop (mkSniBuffer s) 46 2 0 [] = some [0x1301] := by
    rw [cipherLoop, if_pos (by omega : (0:Nat) < 2)]
    have h46 : unpack2 (mkSniBuffer s) (46 + 0) = some 0x1301 := by
      simp [unpack2, mkSniBuffer, sniPrefixBytes]
    rw [h46]
    show cipherLoop (mkSniBuffer s) 46 2 2 ([] ++ [0x1301]) = _
    rw [cipherLoop, if_neg (by omega)]
    rfl
  have e48 : byteAt (mkSniBuffer s) 48 = some 0 := by
    simp [byteAt, mkSniBuffer, sniPrefixBytes]
  have h49 : 49 < (mkSniBuffer s).length := by
    rw [mkSniBuffer_length]
    omega
  have e49 : unpack2 (mkSniBuffer s) 49 = some (9 + s.length) := by
    simp [unpack2, mkSniBuffer, sniPrefixBytes]
  simp [parse_client_hello_raw, e0, e1, e3, e5, e6, e9, e43, e44, ecl, e48, e49, h49,
    extLoop_mk s hlen hdec]


/-- Claim C2, counterexample: the concrete record carrying the single
invalid UTF-8 host-name byte `0xFF` parses successfully to a ClientHello
with `sni = None` — a best-effort partial value — where the claim requires
a typed `InvalidEncoding` parse failure and no ClientHello at all. -/
theorem C2_counterexample :
    parse_client_hello_raw (mkSniBuffer [0xFF]) ≠ none ∧
    parse_client_hello_raw (mkSniBuffer [0xFF]) =
      some ⟨0x0303, [0x1301], [0x0000], none, [], [], []⟩ := by
  have hd : utf8Decode [0xFF] = none := by decide
  have hp : parse_client_hello_raw (mkSniBuffer [0xFF]) =
      some ⟨0x0303, [0x1301], [0x0000], none, [], [], []⟩ := by
    simp [parse_client_hello_raw, mkSniBuffer, sniPrefixBytes, byteAt, unpack2, unpack3,
      cipherLoop, extLoop, parseSniData, pySlice, hd, EXT_SNI]
  exact ⟨by rw [hp]; simp, hp⟩

/-- Claim C2, witness: the amended statement applied to the concrete
invalid UTF-8 host name `[0xFF]`. -/
theorem C2_witness :
    utf8Decode [0xFF] = none ∧
    parse_client_hello_raw (mkSniBuffer [0xFF]) =
      some ⟨0x0303, [0x1301], [0x0000], none, [], [], []⟩ :=
  ⟨by decide, C2_invalid_sni_non_fatal [0xFF] (by decide) (by decide)⟩

end JA4
